import Mathlib

/-!
Verification of the transactional-commit core and dataset command layer of
renku-python, shallowly embedded in Lean 4.

Main sources modelled:
* `renku/core/management/git.py` — `GitCore.commit` (the DIFF commit
  strategy, explicit-path prechecks, empty-commit policy, commit-message
  derivation) and `GitCore.worktree` (isolation cleanup).
* `renku/core/commands/dataset.py` — `add_to_dataset` argument guards,
  `export_dataset` error handling, `import_dataset` tag-name normalisation,
  `_include_exclude` / `_filter` dataset-file filtering.
* `renku/core/models/provenance/agents.py` — `Person.default_id` /
  `Person.default_label`.
-/

namespace RenkuGit

/-- Snapshot of the parts of a git repository state that `GitCore.commit`
inspects.  `untracked` pairs each untracked path with its creation time in
milliseconds (`Path(file).stat().st_ctime * 1e3`); `indexDiff` is
`repo.index.diff(None)` (working tree vs index) as `(a_path, change_type)`
pairs; `headDiff` is `repo.index.diff('HEAD')` (index vs HEAD); `fsExists`
tells whether a path currently exists on disk (`Path(path_).exists()`). -/
structure RepoState where
  untracked : List (String × Int)
  indexDiff : List (String × Char)
  headDiff : List (String × Char)
  fsExists : String → Bool

/-- Paths of the untracked files of a state (`repo.untracked_files`). -/
def untrackedPaths (s : RepoState) : Finset String :=
  (s.untracked.map Prod.fst).toFinset

/-- Paths staged in the index relative to the working tree
(`{item.a_path for item in self.repo.index.diff(None)}`). -/
def stagedPaths (s : RepoState) : Finset String :=
  (s.indexDiff.map Prod.fst).toFinset

/-- Paths different between index and HEAD
(`{item.a_path for item in self.repo.index.diff('HEAD')}`). -/
def modifiedPaths (s : RepoState) : Finset String :=
  (s.headDiff.map Prod.fst).toFinset

/-- `diff_before` of the DIFF commit strategy: the untracked files whose
creation time is at least one second before process start, read off the
state as it is just before the wrapped operation runs (after the initial
`git reset`):
`{file_ for file_ in untracked_files if STARTED_AT - ctime_ms >= 1e3}`. -/
def diffBefore (startedAt : Int) (s : RepoState) : Finset String :=
  ((s.untracked.filter (fun p => 1000 ≤ startedAt - p.2)).map Prod.fst).toFinset

/-- `change_types` after the wrapped operation: the dict built from
`index.diff(None)` and then updated with `index.diff('HEAD')`, so the
HEAD-diff entry wins when both mention a path. -/
def changeTypes (s : RepoState) (p : String) : Option Char :=
  (s.headDiff.lookup p).orElse (fun _ => s.indexDiff.lookup p)

/-- `diff_after` of the DIFF strategy: untracked ∪ staged ∪ modified paths
of the state after the wrapped operation ran. -/
def diffAfter (s : RepoState) : Finset String :=
  untrackedPaths s ∪ stagedPaths s ∪ modifiedPaths s

/-- The `commit_only` list computed by the DIFF strategy:
`diff_after - diff_before`. -/
def diffCommitOnly (startedAt : Int) (sB sA : RepoState) : Finset String :=
  diffAfter sA \ diffBefore startedAt sB

/-- The add loop over an explicit `commit_only` list: a path is staged for
the commit when it exists on disk or its recorded change type is `'D'`
(`if p.exists() or change_types.get(path_) == 'D': self.repo.git.add(path_)`). -/
def addFilter (sA : RepoState) (paths : Finset String) : Finset String :=
  paths.filter (fun p => sA.fsExists p = true ∨ changeTypes sA p = some 'D')

/-- The set of paths staged (and hence committed) by `GitCore.commit` under
the DIFF strategy, as a function of the state `sB` just before the wrapped
operation and the state `sA` just after it.  When the computed
`commit_only` list is non-empty the add loop stages its existing (or
deleted) paths; when it is empty, the fallback
`if not commit_only: self.repo.git.add('--all')` stages every path dirty
relative to HEAD (untracked, modified, or staged). -/
def committedPathsDiff (startedAt : Int) (sB sA : RepoState) : Finset String :=
  if diffCommitOnly startedAt sB sA = ∅ then
    diffAfter sA
  else
    addFilter sA (diffCommitOnly startedAt sB sA)

/-- The set named by the spec sentence: the paths that *became* untracked,
staged, or modified during the wrapped operation (present in the
corresponding after-set but not in the before-set).  Stated from the spec's
words, for comparison with `committedPathsDiff`. -/
def becameDirtyDuring (sB sA : RepoState) : Finset String :=
  (untrackedPaths sA \ untrackedPaths sB) ∪
    (stagedPaths sA \ stagedPaths sB) ∪
    (modifiedPaths sA \ modifiedPaths sB)

/-- `GitCore.ensure_untracked`: scanning `repo.untracked_files`, the error
is raised when some untracked file equals the path or lies under it
(`str(file_path).startswith(path) or path == file_path`).  `true` means
`DirtyRenkuDirectory` is raised. -/
def ensure_untracked (s : RepoState) (path : String) : Bool :=
  (s.untracked.map Prod.fst).any (fun f => path.isPrefixOf f || path == f)

/-- `GitCore.ensure_unstaged`: scanning `repo.index.diff('HEAD')`, the error
is raised when some staged `a_path` equals the path or lies under it.
`true` means `DirtyRenkuDirectory` is raised. -/
def ensure_unstaged (s : RepoState) (path : String) : Bool :=
  (s.headDiff.map Prod.fst).any (fun a => path.isPrefixOf a || path == a)

/-- The precheck `GitCore.commit` runs before the wrapped operation when
`commit_only` is an explicit list: each listed path goes through
`ensure_untracked` and `ensure_unstaged`.  `true` means some path raised
`DirtyRenkuDirectory`. -/
def explicitListPrecheck (s : RepoState) (commitOnly : List String) : Bool :=
  commitOnly.any (fun p => ensure_untracked s p || ensure_unstaged s p)

/-- A Python value passed as `commit_message`: `None`, a string, or a
non-string value carrying only its truthiness (e.g. an empty or non-empty
list). -/
inductive PyMsg where
  | nothing : PyMsg
  | str (s : String) : PyMsg
  | nonstr (truthy : Bool) : PyMsg
deriving DecidableEq, Repr

/-- Python truthiness of a `commit_message` value. -/
def PyMsg.truthy : PyMsg → Bool
  | .nothing => false
  | .str s => !(s == "")
  | .nonstr t => t

/-- `isinstance(commit_message, str)`. -/
def PyMsg.isStr : PyMsg → Bool
  | .str _ => true
  | _ => false

/-- `os.path.basename` for POSIX paths: everything after the last slash. -/
def basename (s : String) : String :=
  String.mk (s.data.foldl (fun acc c => if c = Char.ofNat 47 then [] else acc ++ [c]) [])

/-- Python's `' '.join(argv)`. -/
def joinWords : List String → String
  | [] => ""
  | [w] => w
  | w :: ws => w ++ " " ++ joinWords ws

/-- The errors `GitCore.commit` can raise after the wrapped operation. -/
inductive CommitError where
  | nothingToCommit : CommitError
  | commitMessageEmpty : CommitError
deriving DecidableEq, Repr

/-- Resolution of the commit message in `GitCore.commit`:
a truthy non-string raises `CommitMessageEmpty`; a falsy message is replaced
by the invoking command line, the program name reduced to its basename and
credentials stripped from every following argument; a truthy string is used
as is. -/
def resolveCommitMessage (removeCredentials : String → String)
    (argv0 : String) (argvRest : List String) (msg : PyMsg) :
    Except CommitError String :=
  if msg.truthy && !msg.isStr then
    .error .commitMessageEmpty
  else if !msg.truthy then
    .ok (joinWords (basename argv0 :: argvRest.map removeCredentials))
  else
    match msg with
    | .str s => .ok s
    | _ => .ok ""

/-- Outcome of the tail of `GitCore.commit`: either an error, a silent
return without a commit, or a commit with the resolved message. -/
inductive CommitOutcome where
  | err (e : CommitError) : CommitOutcome
  | noCommit : CommitOutcome
  | committed (msg : String) : CommitOutcome
deriving DecidableEq, Repr

/-- The tail of `GitCore.commit` after staging: the empty-commit policy
(`if not commit_empty and not self.repo.index.diff('HEAD')`) followed by
commit-message resolution and the commit itself.  `sPost` is the state
after the `git add` step. -/
def commitFinish (commitEmpty raiseIfEmpty : Bool) (sPost : RepoState)
    (removeCredentials : String → String) (argv0 : String)
    (argvRest : List String) (msg : PyMsg) : CommitOutcome :=
  if !commitEmpty && sPost.headDiff.isEmpty then
    if raiseIfEmpty then .err .nothingToCommit else .noCommit
  else
    match resolveCommitMessage removeCredentials argv0 argvRest msg with
    | .error e => .err e
    | .ok m => .committed m

/-- The `commit` argument of `GitCore.worktree`: `git.NULL_TREE` (orphan
branch), an explicit commit, or the default `None`. -/
inductive WorktreeCommitArg where
  | nullTree : WorktreeCommitArg
  | fromCommit (c : String) : WorktreeCommitArg
  | nothing : WorktreeCommitArg
deriving DecidableEq, Repr

/-- Which resources of a worktree isolation run remain after it finishes. -/
structure WorktreeCleanup where
  worktreeRemoved : Bool
  branchRemoved : Bool
deriving DecidableEq, Repr

/-- Error raised when merging the isolation branch back fails. -/
inductive WorktreeError where
  | failedMerge : WorktreeError
deriving DecidableEq, Repr

/-- The cleanup tail of `GitCore.worktree`: `delete = path is None`;
`new_branch` is set only on the non-`NULL_TREE` path (`worktree add -b`);
a failing merge raises `FailedMerge` leaving everything in place; after a
successful merge the worktree is removed when `delete`, and the branch is
additionally removed when `delete and new_branch`. -/
def worktreeFinish (pathArg : Option String) (commitArg : WorktreeCommitArg)
    (mergeSucceeds : Bool) : Except WorktreeError WorktreeCleanup :=
  let delete := pathArg.isNone
  let newBranch :=
    match commitArg with
    | .nullTree => false
    | _ => true
  if !mergeSucceeds then
    .error .failedMerge
  else
    .ok ⟨delete, delete && newBranch⟩

end RenkuGit

namespace RenkuDataset

/-- The errors the argument guard of `add_to_dataset` can raise. -/
inductive AddUsageError where
  | noUrl : AddUsageError
  | multipleUrls : AddUsageError
deriving DecidableEq, Repr

/-- The argument guard at the top of `add_to_dataset`, before any side
effect: `if len(urls) == 0: raise UsageError(...)` and
`if (sources or destination) and len(urls) > 1: raise UsageError(...)`.
`sources` defaults to `()` and `destination` to `''`, so their Python
truthiness is non-emptiness. -/
def addToDatasetGuard (urls sources : List String) (destination : String) :
    Option AddUsageError :=
  if urls.length = 0 then
    some .noUrl
  else if (!sources.isEmpty || !(destination == "")) && urls.length > 1 then
    some .multipleUrls
  else
    none

/-- Whether `sub` is a prefix of some suffix of the character list. -/
def containsAux (sub : List Char) : List Char → Bool
  | [] => sub.isEmpty
  | c :: rest => sub.isPrefixOf (c :: rest) || containsAux sub rest

/-- Whether `sub` occurs as a substring of `s` (Python's `sub in s`). -/
def strContains (s sub : String) : Bool :=
  containsAux sub.data s.data

/-- A configuration store: section/key pairs mapped to values, with
`client.remove_value` modelled as removal of the entry. -/
def removeValue (config : List ((String × String) × String))
    (sec key : String) : List ((String × String) × String) :=
  config.filter (fun kv => kv.1 ≠ (sec, key))

/-- Outcome of `exporter.export(...)` inside `export_dataset`: a successful
upload with a destination, or an `HTTPError` with its string rendering. -/
inductive ExportOutcome where
  | success (dest : String) : ExportOutcome
  | httpError (msg : String) : ExportOutcome
deriving DecidableEq, Repr

/-- The `try/except HTTPError` block of `export_dataset`: on an HTTP error
whose text contains `'unauthorized'` the persisted `access_token` of the
provider is removed from the configuration, and the error is re-raised
either way; on success the configuration is untouched and the result
message is returned. -/
def exportFinish (providerId : String)
    (config : List ((String × String) × String)) (outcome : ExportOutcome) :
    List ((String × String) × String) × Except String String :=
  match outcome with
  | .success d => (config, .ok ("Exported to: " ++ d))
  | .httpError e =>
      (if strContains e "unauthorized" then
        removeValue config providerId "access_token"
      else config,
      .error e)

/-- The character class of `re.sub('[^a-zA-Z0-9.-_]', '_', version)` in
`import_dataset`.  Inside the class, `.-_` is a character *range* from
`'.'` (0x2E) to `'_'` (0x5F), so the class is letters, digits, and every
character with code 0x2E–0x5F. -/
def importTagClass (c : Char) : Bool :=
  (('a' ≤ c && c ≤ 'z') || ('A' ≤ c && c ≤ 'Z') || ('0' ≤ c && c ≤ '9')) ||
    (('.' ≤ c) && (c ≤ '_'))

/-- `tag_name = re.sub('[^a-zA-Z0-9.-_]', '_', dataset.version)`: every
character outside `importTagClass` is replaced by an underscore (each match
of the class complement is a single character). -/
def importTagName (version : String) : String :=
  String.mk (version.data.map (fun c => if importTagClass c then c else '_'))

/-- Modelled from the spec: the allowed DatasetTag character set
`[a-zA-Z0-9.\-_]+` (the validation lives in
`renku/core/models/datasets.py`, which is not part of the sources here). -/
def allowedTagChar (c : Char) : Bool :=
  ('a' ≤ c && c ≤ 'z') || ('A' ≤ c && c ≤ 'Z') || ('0' ≤ c && c ≤ '9') ||
    c == '.' || c == '-' || c == '_'

/-- Modelled from the spec: a non-empty tag name all of whose characters
are in the allowed set. -/
def conformsToTagSet (s : String) : Bool :=
  !(s == "") && s.data.all allowedTagChar

end RenkuDataset

namespace RenkuAgents

/-- Python's `string.punctuation`: ASCII codes 33–47, 58–64, 91–96 and
123–126. -/
def isPyPunct (c : Char) : Bool :=
  (33 ≤ c.toNat && c.toNat ≤ 47) || (58 ≤ c.toNat && c.toNat ≤ 64) ||
    (91 ≤ c.toNat && c.toNat ≤ 96) || (123 ≤ c.toNat && c.toNat ≤ 126)

/-- Membership in Python's `string.printable`: digits, letters, punctuation
and the whitespace `' \t\n\r\x0b\x0c'` — exactly ASCII 32–126 plus codes
9–13. -/
def isPyPrintable (c : Char) : Bool :=
  (32 ≤ c.toNat && c.toNat ≤ 126) || (9 ≤ c.toNat && c.toNat ≤ 13)

/-- ASCII whitespace as used by `str.split()` on the printable-only strings
reaching it here: space and codes 9–13. -/
def isPySpace (c : Char) : Bool :=
  c.toNat = 32 || (9 ≤ c.toNat && c.toNat ≤ 13)

/-- `str.lower()` on the ASCII characters that survive the printable
filter: uppercase letters shift down by 32, everything else is unchanged. -/
def pyLower (c : Char) : Char :=
  if 65 ≤ c.toNat && c.toNat ≤ 90 then Char.ofNat (c.toNat + 32) else c

/-- The name normalisation of `Person.default_id` when no email is present:
`name.translate(str.maketrans('', '', string.punctuation))` removes the
punctuation, `filter(lambda x: x in string.printable, name)` keeps only
printable characters, `name.lower()` lowercases, and `''.join(...split())`
drops every whitespace character. -/
def normalizeName (name : String) : String :=
  String.mk ((((name.data.filter (fun c => !isPyPunct c)).filter
    isPyPrintable).map pyLower).filter (fun c => !isPySpace c))

/-- Python truthiness of the optional `email` attribute. -/
def emailTruthy : Option String → Bool
  | none => false
  | some e => !(e == "")

/-- `Person.default_id`: `mailto:<email>` when the email is truthy,
otherwise the normalised name token prefixed with `_:`. -/
def default_id (email : Option String) (name : String) : String :=
  if emailTruthy email then
    "mailto:" ++ email.getD ""
  else
    "_:" ++ normalizeName name

/-- `Person.default_label`: the name itself. -/
def default_label (name : String) : String :=
  name

end RenkuAgents

namespace RenkuFilter

/-- A dataset file as `_filter` sees it: a repository-relative path, the
names of its creators, and its `added` timestamp. -/
structure DSFile where
  path : String
  creatorNames : List String
  added : Nat
deriving DecidableEq, Repr

/-- A dataset as `_filter` sees it: its name, short name and files. -/
structure DatasetM where
  name : String
  short_name : String
  files : List DSFile
deriving DecidableEq, Repr

/-- `_include_exclude`, parametric in the path-glob matcher
(`file_path.match(pattern)`): an exclude match returns `False` first; with
include patterns present the file must match one of them; with none the
file passes. -/
def includeExclude (matchFn : String → String → Bool) (filePath : String)
    (incl excl : List String) : Bool :=
  if excl.any (fun pat => matchFn filePath pat) then
    false
  else if !incl.isEmpty then
    incl.any (fun pat => matchFn filePath pat)
  else
    true

/-- The per-file selection of `_filter`: the include/exclude match, and —
only when the `creators` filter is non-empty (Python truthiness of the
set) — the requirement that every requested creator name occurs among the
file's creators (`creators.issubset(...)`). -/
def fileSelected (matchFn : String → String → Bool) (creators : List String)
    (incl excl : List String) (f : DSFile) : Bool :=
  let m := includeExclude matchFn f.path incl excl
  if !creators.isEmpty then
    m && creators.all (fun c => f.creatorNames.contains c)
  else
    m

/-- The record collection of `_filter` before sorting: every file of every
dataset whose short name is selected by `names` (an empty `names` selects
all datasets), kept when `fileSelected` holds. -/
def filterRecords (matchFn : String → String → Bool)
    (datasets : List DatasetM) (names creators incl excl : List String) :
    List DSFile :=
  (datasets.filter
      (fun ds => names.isEmpty || names.contains ds.short_name)).flatMap
    (fun ds => ds.files.filter (fileSelected matchFn creators incl excl))

/-- `_filter`: the collected records sorted by their `added` timestamp. -/
def filterFiles (matchFn : String → String → Bool)
    (datasets : List DatasetM) (names creators incl excl : List String) :
    List DSFile :=
  (filterRecords matchFn datasets names creators incl excl).mergeSort
    (fun a b => a.added ≤ b.added)

/-- Exact-equality pattern semantics, a concrete instance of the glob
matcher for witnesses. -/
def eqMatch (filePath pat : String) : Bool :=
  pat == filePath

/-- A concrete dataset file, matched by the pattern `a.txt`. -/
def dsFileA : DSFile :=
  ⟨"a.txt", [], 1⟩

/-- A concrete dataset file not matched by the pattern `a.txt`. -/
def dsFileB : DSFile :=
  ⟨"b.csv", [], 0⟩

/-- A concrete dataset holding `dsFileA` and `dsFileB`. -/
def dsA : DatasetM :=
  ⟨"dataset-a", "a", [dsFileA, dsFileB]⟩

end RenkuFilter

namespace RenkuGit

/-- A repository state whose only deviation from HEAD is one tracked file,
`m.txt`, modified in the working tree but not staged and not untracked. -/
def sModified : RepoState :=
  ⟨[], [("m.txt", 'M')], [], fun _ => true⟩

/-- State before a wrapped operation: one pre-existing untracked file
`old.txt` created at time 0. -/
def sBeforeOp : RepoState :=
  ⟨[("old.txt", 0)], [], [], fun _ => true⟩

/-- State after the wrapped operation: the operation created `new.txt`
(at time 20000, well after process start) next to the pre-existing
`old.txt`. -/
def sAfterOp : RepoState :=
  ⟨[("old.txt", 0), ("new.txt", 20000)], [], [], fun _ => true⟩

lemma mem_untrackedPaths {s : RepoState} {f : String} :
    f ∈ untrackedPaths s ↔ ∃ t, (f, t) ∈ s.untracked := by
  simp only [untrackedPaths, List.mem_toFinset, List.mem_map, Prod.exists]
  constructor
  · rintro ⟨a, b, hab, rfl⟩
    exact ⟨b, hab⟩
  · rintro ⟨t, ht⟩
    exact ⟨f, t, ht, rfl⟩

lemma mem_diffBefore {startedAt : Int} {s : RepoState} {f : String} :
    f ∈ diffBefore startedAt s ↔
      ∃ t, (f, t) ∈ s.untracked ∧ 1000 ≤ startedAt - t := by
  simp only [diffBefore, List.mem_toFinset, List.mem_map, List.mem_filter,
    Prod.exists, decide_eq_true_eq]
  constructor
  · rintro ⟨a, b, ⟨hab, hle⟩, rfl⟩
    exact ⟨b, hab, hle⟩
  · rintro ⟨t, ht, hle⟩
    exact ⟨f, t, ⟨ht, hle⟩, rfl⟩

lemma diffBefore_subset_untracked {startedAt : Int} {s : RepoState}
    {f : String} (h : f ∈ diffBefore startedAt s) : f ∈ untrackedPaths s := by
  rcases mem_diffBefore.mp h with ⟨t, ht, _⟩
  exact mem_untrackedPaths.mpr ⟨t, ht⟩

lemma mem_committedPathsDiff {startedAt : Int} {sB sA : RepoState}
    {f : String} (hne : diffCommitOnly startedAt sB sA ≠ ∅) :
    f ∈ committedPathsDiff startedAt sB sA ↔
      f ∈ diffAfter sA ∧ f ∉ diffBefore startedAt sB ∧
        (sA.fsExists f = true ∨ changeTypes sA f = some 'D') := by
  rw [committedPathsDiff, if_neg hne]
  simp only [addFilter, diffCommitOnly, Finset.mem_filter, Finset.mem_sdiff]
  tauto

/-- C1 (counterexample).  The diff commit strategy does not commit *exactly*
the paths that became untracked, staged, or modified during the wrapped
operation: in a repository where `m.txt` was already modified before the
operation and the operation changes nothing, `m.txt` did not become dirty
during the operation, yet it is committed. -/
theorem diff_commit_includes_preexisting_modified :
    "m.txt" ∈ committedPathsDiff 10000 sModified sModified ∧
    "m.txt" ∉ becameDirtyDuring sModified sModified := by
  constructor <;> decide

/-- C1 (amended).  Under the diff commit strategy: when some path changed
during the operation (`diff_after - diff_before` non-empty), the committed
paths are exactly those changed paths that exist on disk or are recorded as
deleted — in particular a file created by the operation is committed, and a
pre-existing untracked file whose creation time is at least one second
before process start is excluded.  When `diff_after - diff_before` is
empty, the fallback `git add --all` stages everything, and the commit
includes every path dirty relative to HEAD — including such pre-existing
untracked files. -/
theorem diff_commit_strategy_paths (startedAt : Int) (sB sA : RepoState)
    (f : String) :
    (diffCommitOnly startedAt sB sA ≠ ∅ →
      (f ∈ committedPathsDiff startedAt sB sA ↔
        f ∈ diffAfter sA ∧ f ∉ diffBefore startedAt sB ∧
          (sA.fsExists f = true ∨ changeTypes sA f = some 'D'))) ∧
    (f ∈ untrackedPaths sA → f ∉ untrackedPaths sB → sA.fsExists f = true →
      f ∈ committedPathsDiff startedAt sB sA) ∧
    (∀ t, (f, t) ∈ sB.untracked → 1000 ≤ startedAt - t →
      diffCommitOnly startedAt sB sA ≠ ∅ →
      f ∉ committedPathsDiff startedAt sB sA) ∧
    (diffCommitOnly startedAt sB sA = ∅ →
      committedPathsDiff startedAt sB sA = diffAfter sA) := by
  refine ⟨fun hne => mem_committedPathsDiff hne, ?_, ?_, ?_⟩
  · intro hA hB hex
    have hAfter : f ∈ diffAfter sA := by
      simp only [diffAfter, Finset.mem_union]
      exact Or.inl (Or.inl hA)
    have hnb : f ∉ diffBefore startedAt sB := fun hdb =>
      hB (diffBefore_subset_untracked hdb)
    by_cases h : diffCommitOnly startedAt sB sA = ∅
    · rw [committedPathsDiff, if_pos h]
      exact hAfter
    · exact (mem_committedPathsDiff h).mpr ⟨hAfter, hnb, Or.inl hex⟩
  · intro t ht hle hne hc
    rcases (mem_committedPathsDiff hne).mp hc with ⟨_, hnb, _⟩
    exact hnb (mem_diffBefore.mpr ⟨t, ht, hle⟩)
  · intro h
    rw [committedPathsDiff, if_pos h]

/-- C1 (witness).  With `old.txt` untracked since time 0 and the operation
(running in a process started at time 10000) creating `new.txt`, the
commit includes `new.txt` and excludes `old.txt`; the membership
characterisation holds there concretely; and when the same repository runs
a no-op operation (before-state equal to after-state, diff empty), the
fallback commits everything dirty — `old.txt` included. -/
theorem diff_commit_strategy_paths_witness :
    "new.txt" ∈ committedPathsDiff 10000 sBeforeOp sAfterOp ∧
    "old.txt" ∉ committedPathsDiff 10000 sBeforeOp sAfterOp ∧
    ("new.txt" ∈ committedPathsDiff 10000 sBeforeOp sAfterOp ↔
      "new.txt" ∈ diffAfter sAfterOp ∧
      "new.txt" ∉ diffBefore 10000 sBeforeOp ∧
        (sAfterOp.fsExists "new.txt" = true ∨
          changeTypes sAfterOp "new.txt" = some 'D')) ∧
    committedPathsDiff 10000 sBeforeOp sBeforeOp = diffAfter sBeforeOp := by
  refine ⟨?_, ?_, ?_, ?_⟩
  · exact (diff_commit_strategy_paths 10000 sBeforeOp sAfterOp "new.txt").2.1
      (by decide) (by decide) (by decide)
  · exact (diff_commit_strategy_paths 10000 sBeforeOp sAfterOp "old.txt").2.2.1
      0 (by decide) (by decide) (by decide)
  · exact (diff_commit_strategy_paths 10000 sBeforeOp sAfterOp "new.txt").1
      (by decide)
  · exact (diff_commit_strategy_paths 10000 sBeforeOp sBeforeOp "old.txt").2.2.2
      (by decide)

/-- C2 (counterexample).  With an explicit `commit_only` list, a listed path
that is already *modified* in the working tree (`m.txt` appears in
`index.diff(None)`) passes the precheck without any `DirtyRenkuDirectory`
error: the precheck only consults the untracked files and the staged
diff against HEAD. -/
theorem explicit_list_modified_path_unchecked :
    explicitListPrecheck sModified ["m.txt"] = false ∧
    sModified.indexDiff = [("m.txt", 'M')] :=
  ⟨rfl, rfl⟩

/-- C2 (amended).  With an explicit `commit_only` list the engine checks,
before running the wrapped operation, that no listed path is untracked
(or has an untracked file beneath it) and that none is staged relative to
HEAD; exactly on violation, `DirtyRenkuDirectory` is raised. -/
theorem explicit_list_precheck_spec (s : RepoState) (commitOnly : List String) :
    explicitListPrecheck s commitOnly = true ↔
      ∃ p ∈ commitOnly,
        (∃ q ∈ s.untracked.map Prod.fst, p.isPrefixOf q = true ∨ p = q) ∨
        (∃ q ∈ s.headDiff.map Prod.fst, p.isPrefixOf q = true ∨ p = q) := by
  simp only [explicitListPrecheck, ensure_untracked, ensure_unstaged,
    List.any_eq_true, Bool.or_eq_true, beq_iff_eq]

/-- C3 (counterexample).  An *empty* (falsy) non-string commit message —
e.g. an empty list — is not rejected with `CommitMessageEmpty`: it falls
through to the derivation of the message from the command line. -/
theorem empty_nonstring_message_not_rejected :
    resolveCommitMessage id "renku" ["run"] (.nonstr false) = .ok "renku run" := by
  rfl

/-- C3 (amended).  A *truthy* non-string commit message is rejected with
`CommitMessageEmpty`; a falsy message (none supplied, the empty string, or
an empty non-string) is replaced by the invoking command line with
credentials stripped from every argument after the program name; a
non-empty string is used as given. -/
theorem commit_message_resolution (rc : String → String) (argv0 : String)
    (rest : List String) (msg : PyMsg) :
    (msg.truthy = true → msg.isStr = false →
      resolveCommitMessage rc argv0 rest msg = .error .commitMessageEmpty) ∧
    (msg.truthy = false →
      resolveCommitMessage rc argv0 rest msg =
        .ok (joinWords (basename argv0 :: rest.map rc))) ∧
    (∀ s, msg = .str s → s ≠ "" →
      resolveCommitMessage rc argv0 rest msg = .ok s) := by
  refine ⟨?_, ?_, ?_⟩
  · intro ht hs
    simp [resolveCommitMessage, ht, hs]
  · intro ht
    simp [resolveCommitMessage, ht]
  · rintro s rfl hne
    simp [resolveCommitMessage, PyMsg.truthy, PyMsg.isStr, hne]

/-- C3 (witness).  Concrete instances of the three branches of
`commit_message_resolution`. -/
theorem commit_message_resolution_witness :
    resolveCommitMessage id "renku" ["dataset", "add"] (.nonstr true) =
      .error .commitMessageEmpty ∧
    resolveCommitMessage id "/usr/bin/renku" ["dataset"] .nothing =
      .ok "renku dataset" ∧
    resolveCommitMessage id "renku" [] (.str "my message") =
      .ok "my message" := by
  refine ⟨?_, ?_, ?_⟩
  · exact (commit_message_resolution id "renku" ["dataset", "add"]
      (.nonstr true)).1 (by decide) (by decide)
  · exact ((commit_message_resolution id "/usr/bin/renku" ["dataset"]
      .nothing).2.1 (by decide)).trans (by rfl)
  · exact (commit_message_resolution id "renku" [] (.str "my message")).2.2
      "my message" rfl (by decide)

/-- C4 (confirmed).  With empty commits disabled and no difference against
HEAD after the wrapped operation, the engine raises `NothingToCommit` when
`raise_if_empty` is set and otherwise returns without committing; with the
default `commit_empty = True` a commit is always created (here shown with
the message derived from the command line, for any falsy message). -/
theorem empty_commit_policy (sPost : RepoState) (rc : String → String)
    (argv0 : String) (rest : List String) (msg : PyMsg) (rie : Bool) :
    (sPost.headDiff = [] →
      commitFinish false true sPost rc argv0 rest msg = .err .nothingToCommit) ∧
    (sPost.headDiff = [] →
      commitFinish false false sPost rc argv0 rest msg = .noCommit) ∧
    (msg.truthy = false →
      commitFinish true rie sPost rc argv0 rest msg =
        .committed (joinWords (basename argv0 :: rest.map rc))) := by
  refine ⟨?_, ?_, ?_⟩
  · intro h
    simp [commitFinish, h]
  · intro h
    simp [commitFinish, h]
  · intro ht
    simp [commitFinish, resolveCommitMessage, ht]

/-- C4 (witness).  The three branches of `empty_commit_policy` at a clean
post-operation state. -/
theorem empty_commit_policy_witness :
    commitFinish false true ⟨[], [], [], fun _ => true⟩ id "renku" ["run"]
      .nothing = .err .nothingToCommit ∧
    commitFinish false false ⟨[], [], [], fun _ => true⟩ id "renku" ["run"]
      .nothing = .noCommit ∧
    commitFinish true false ⟨[], [], [], fun _ => true⟩ id "renku" ["run"]
      .nothing = .committed "renku run" := by
  refine ⟨?_, ?_, ?_⟩
  · exact (empty_commit_policy ⟨[], [], [], fun _ => true⟩ id "renku" ["run"]
      .nothing true).1 rfl
  · exact (empty_commit_policy ⟨[], [], [], fun _ => true⟩ id "renku" ["run"]
      .nothing false).2.1 rfl
  · exact ((empty_commit_policy ⟨[], [], [], fun _ => true⟩ id "renku" ["run"]
      .nothing false).2.2 (by decide)).trans (by rfl)

/-- C5 (counterexample).  An isolation run without an explicit path but with
`commit = NULL_TREE` (orphan branch): after a successful merge the
temporary worktree is removed but the temporary branch is *not*
(`new_branch` is never set on the orphan path). -/
theorem worktree_orphan_branch_not_removed :
    worktreeFinish none .nullTree true =
      .ok { worktreeRemoved := true, branchRemoved := false } := by
  rfl

/-- C5 (amended).  After a successful merge, a worktree created without an
explicit persistent path is removed, and its temporary branch is removed
as well exactly when the worktree was created with a new branch (any
`commit` argument other than `NULL_TREE`); an orphan worktree's branch is
kept.  With an explicit path neither is removed, and a failing merge
raises `FailedMerge` removing nothing. -/
theorem worktree_cleanup_spec (p c : String) :
    worktreeFinish none (.fromCommit c) true =
      .ok { worktreeRemoved := true, branchRemoved := true } ∧
    worktreeFinish none .nothing true =
      .ok { worktreeRemoved := true, branchRemoved := true } ∧
    worktreeFinish none .nullTree true =
      .ok { worktreeRemoved := true, branchRemoved := false } ∧
    (∀ cm, worktreeFinish (some p) cm true =
      .ok { worktreeRemoved := false, branchRemoved := false }) ∧
    (∀ pa cm, worktreeFinish pa cm false = .error .failedMerge) := by
  refine ⟨rfl, rfl, rfl, ?_, ?_⟩
  · intro cm
    cases cm <;> rfl
  · intro pa cm
    cases pa <;> cases cm <;> rfl

end RenkuGit

namespace RenkuDataset

/-- C6 (confirmed).  The guard at the top of `add_to_dataset` — before any
side effect — raises `UsageError` when the URL list is empty, and when more
than one URL is combined with an explicit source or destination. -/
theorem add_to_dataset_guard_spec (urls sources : List String)
    (destination : String) :
    (urls = [] → addToDatasetGuard urls sources destination = some .noUrl) ∧
    (1 < urls.length → sources ≠ [] ∨ destination ≠ "" →
      addToDatasetGuard urls sources destination = some .multipleUrls) := by
  constructor
  · rintro rfl
    rfl
  · intro hlen hsd
    have h0 : ¬ urls.length = 0 := by omega
    have hcond : (!sources.isEmpty || !(destination == "")) = true := by
      rcases hsd with h | h
      · simp [List.isEmpty_iff, h]
      · simp [h]
    simp [addToDatasetGuard, h0, hcond, hlen]

/-- C6 (witness).  Concrete guard violations: no URL at all, and two URLs
with a source (resp. a destination). -/
theorem add_to_dataset_guard_witness :
    addToDatasetGuard [] [] "" = some .noUrl ∧
    addToDatasetGuard ["u1", "u2"] ["src"] "" = some .multipleUrls ∧
    addToDatasetGuard ["u1", "u2"] [] "dest" = some .multipleUrls := by
  refine ⟨?_, ?_, ?_⟩
  · exact (add_to_dataset_guard_spec [] [] "").1 rfl
  · exact (add_to_dataset_guard_spec ["u1", "u2"] ["src"] "").2 (by decide)
      (Or.inl (by decide))
  · exact (add_to_dataset_guard_spec ["u1", "u2"] [] "dest").2 (by decide)
      (Or.inr (by decide))

/-- C7 (confirmed).  In `export_dataset`, an HTTP error whose text contains
`unauthorized` removes the provider's persisted `access_token` from the
configuration and the error is re-raised; any other HTTP error leaves the
configuration unchanged and still propagates; a successful upload leaves
the configuration unchanged. -/
theorem export_unauthorized_purges_credentials (providerId : String)
    (config : List ((String × String) × String)) (e dest : String) :
    (strContains e "unauthorized" = true →
      (exportFinish providerId config (.httpError e)).1 =
        removeValue config providerId "access_token" ∧
      (∀ v, ((providerId, "access_token"), v) ∉
        (exportFinish providerId config (.httpError e)).1) ∧
      (exportFinish providerId config (.httpError e)).2 = .error e) ∧
    (strContains e "unauthorized" = false →
      (exportFinish providerId config (.httpError e)).1 = config ∧
      (exportFinish providerId config (.httpError e)).2 = .error e) ∧
    exportFinish providerId config (.success dest) =
      (config, .ok ("Exported to: " ++ dest)) := by
  refine ⟨?_, ?_, rfl⟩
  · intro h
    refine ⟨by simp [exportFinish, h], ?_, by simp [exportFinish, h]⟩
    intro v hv
    simp only [exportFinish, h, if_true, removeValue, List.mem_filter,
      decide_eq_true_eq] at hv
    exact hv.2 rfl
  · intro h
    simp [exportFinish, h]

/-- C7 (witness).  A concrete `401 ... unauthorized` response purges the
stored token; a concrete `500` response keeps it; both re-raise. -/
theorem export_unauthorized_purges_credentials_witness :
    (exportFinish "zenodo" [(("zenodo", "access_token"), "secret")]
      (.httpError "401 Client Error: unauthorized")).1 = [] ∧
    (exportFinish "zenodo" [(("zenodo", "access_token"), "secret")]
      (.httpError "500 Server Error")).1 =
      [(("zenodo", "access_token"), "secret")] ∧
    (exportFinish "zenodo" [(("zenodo", "access_token"), "secret")]
      (.httpError "500 Server Error")).2 = .error "500 Server Error" := by
  refine ⟨?_, ?_, ?_⟩
  · exact (((export_unauthorized_purges_credentials "zenodo"
      [(("zenodo", "access_token"), "secret")]
      "401 Client Error: unauthorized" "").1 (by decide)).1).trans (by decide)
  · exact ((export_unauthorized_purges_credentials "zenodo"
      [(("zenodo", "access_token"), "secret")]
      "500 Server Error" "").2.1 (by decide)).1
  · exact ((export_unauthorized_purges_credentials "zenodo"
      [(("zenodo", "access_token"), "secret")]
      "500 Server Error" "").2.1 (by decide)).2

/-- C8 (code bug).  The tag-name normalisation of `import_dataset` does not
produce a name in the allowed tag set: in `re.sub('[^a-zA-Z0-9.-_]', '_',
version)` the fragment `.-_` is a character *range* (0x2E–0x5F), so a
version such as `v1/2` keeps its slash and the resulting tag name violates
`[a-zA-Z0-9.\-_]+`, while an allowed hyphen (`1-rc`) is needlessly replaced
by an underscore. -/
theorem import_tag_name_not_normalized :
    importTagName "v1/2" = "v1/2" ∧
    conformsToTagSet (importTagName "v1/2") = false ∧
    importTagName "1-rc" = "1_rc" := by
  refine ⟨by decide, by decide, by decide⟩

end RenkuDataset

namespace RenkuAgents

lemma toNat_ofNat_of_valid (n : Nat) (h : Nat.isValidChar n) :
    (Char.ofNat n).toNat = n := by
  simp [Char.ofNat, Char.ofNatAux, h]
  rfl

lemma normalizeName_chars (name : String) :
    ∀ c ∈ (normalizeName name).data,
      (48 ≤ c.toNat ∧ c.toNat ≤ 57) ∨ (97 ≤ c.toNat ∧ c.toNat ≤ 122) := by
  intro c hc
  simp only [normalizeName, List.mem_filter, List.mem_map] at hc
  obtain ⟨⟨a, ⟨⟨ha, hpunct⟩, hprint⟩, rfl⟩, hspace⟩ := hc
  simp only [isPyPunct, Bool.not_eq_true', Bool.or_eq_false_iff,
    Bool.and_eq_false_iff, decide_eq_false_iff_not, Nat.not_le] at hpunct
  simp only [isPyPrintable, Bool.or_eq_true, Bool.and_eq_true,
    decide_eq_true_eq] at hprint
  by_cases hup : 65 ≤ a.toNat ∧ a.toNat ≤ 90
  · have hcond : (65 ≤ a.toNat && a.toNat ≤ 90) = true := by
      simp [hup.1, hup.2]
    have hval : Nat.isValidChar (a.toNat + 32) := by
      left
      omega
    have : (pyLower a).toNat = a.toNat + 32 := by
      simp only [pyLower, hcond, if_true]
      exact toNat_ofNat_of_valid _ hval
    right
    omega
  · have hcond : (65 ≤ a.toNat && a.toNat ≤ 90) = false := by
      rcases Nat.lt_or_ge a.toNat 65 with h | h
      · simp [Nat.not_le.mpr h]
      · have : ¬ a.toNat ≤ 90 := fun hle => hup ⟨h, hle⟩
        simp [this]
    have heq : pyLower a = a := by
      simp only [pyLower, hcond]
      simp
    rw [heq] at hspace ⊢
    simp only [isPySpace, Bool.not_eq_true', Bool.or_eq_false_iff,
      Bool.and_eq_false_iff, decide_eq_false_iff_not, Nat.not_le] at hspace
    omega

/-- C9 (confirmed).  `Person.default_id` is `mailto:<email>` when an email
is present; otherwise it is the underscore-colon-prefixed normalised name
token, in which every character is free of punctuation, whitespace and
non-printable characters and is already lowercase.  `Person.default_label`
defaults to the name. -/
theorem person_default_id_label (name : String) (email : Option String) :
    (emailTruthy email = true →
      default_id email name = "mailto:" ++ email.getD "") ∧
    (emailTruthy email = false →
      default_id email name = "_:" ++ normalizeName name ∧
      ∀ c ∈ (normalizeName name).data,
        isPyPunct c = false ∧ isPySpace c = false ∧ isPyPrintable c = true ∧
          pyLower c = c) ∧
    default_label name = name := by
  refine ⟨?_, ?_, rfl⟩
  · intro h
    simp [default_id, h]
  · intro h
    refine ⟨by simp [default_id, h], ?_⟩
    intro c hc
    have hr := normalizeName_chars name c hc
    have hnotUp : (65 ≤ c.toNat && c.toNat ≤ 90) = false := by
      rcases hr with ⟨h1, h2⟩ | ⟨h1, h2⟩
      · have : ¬ 65 ≤ c.toNat := by omega
        simp [this]
      · have : ¬ c.toNat ≤ 90 := by omega
        simp [this]
    refine ⟨?_, ?_, ?_, ?_⟩
    · simp only [isPyPunct, Bool.or_eq_false_iff, Bool.and_eq_false_iff,
        decide_eq_false_iff_not, Nat.not_le]
      omega
    · simp only [isPySpace, Bool.or_eq_false_iff, Bool.and_eq_false_iff,
        decide_eq_false_iff_not, Nat.not_le]
      constructor
      · omega
      · omega
    · simp only [isPyPrintable, Bool.or_eq_true, Bool.and_eq_true,
        decide_eq_true_eq]
      left
      omega
    · rw [pyLower, hnotUp]
      simp

/-- C9 (witness).  A concrete person with an email gets a `mailto:`
identifier; one without gets the normalised name token (`Dr. John  Doe`
becomes `_:drjohndoe`). -/
theorem person_default_id_label_witness :
    default_id (some "john@example.com") "John Doe" =
      "mailto:john@example.com" ∧
    default_id none "Dr. John  Doe" = "_:drjohndoe" := by
  constructor
  · exact (person_default_id_label "John Doe" (some "john@example.com")).1
      (by decide)
  · exact (((person_default_id_label "Dr. John  Doe" none).2.1
      (by decide)).1).trans (by decide)

end RenkuAgents

namespace RenkuFilter

lemma mem_filterFiles {matchFn : String → String → Bool}
    {datasets : List DatasetM} {names creators incl excl : List String}
    {f : DSFile} :
    f ∈ filterFiles matchFn datasets names creators incl excl ↔
      ∃ ds ∈ datasets,
        (names.isEmpty || names.contains ds.short_name) = true ∧
        f ∈ ds.files ∧
        fileSelected matchFn creators incl excl f = true := by
  simp only [filterFiles, List.mem_mergeSort, filterRecords, List.mem_flatMap,
    List.mem_filter]
  constructor
  · rintro ⟨ds, hds, hf, hcond⟩
    exact ⟨ds, hds.1, hds.2, hf, hcond⟩
  · rintro ⟨ds, hds, hsel, hf, hcond⟩
    exact ⟨ds, ⟨hds, hsel⟩, hf, hcond⟩

/-- C10 (confirmed).  In the dataset-file filtering shared by list-files,
unlink and update, exclude patterns take precedence: a path matching any
exclude pattern is rejected by `_include_exclude` regardless of the include
patterns, and a file whose path matches an exclude pattern is never among
the selected records; with no include patterns (and no creator filter)
exactly the non-excluded files of the named datasets are selected. -/
theorem filter_exclude_precedence (matchFn : String → String → Bool)
    (datasets : List DatasetM) (names creators incl excl : List String)
    (f : DSFile) (filePath : String) :
    (excl.any (fun pat => matchFn filePath pat) = true →
      includeExclude matchFn filePath incl excl = false) ∧
    (excl.any (fun pat => matchFn f.path pat) = true →
      f ∉ filterFiles matchFn datasets names creators incl excl) ∧
    (incl = [] → creators = [] →
      (f ∈ filterFiles matchFn datasets names creators incl excl ↔
        ∃ ds ∈ datasets,
          (names.isEmpty || names.contains ds.short_name) = true ∧
          f ∈ ds.files ∧
          excl.any (fun pat => matchFn f.path pat) = false)) := by
  refine ⟨?_, ?_, ?_⟩
  · intro h
    simp [includeExclude, h]
  · intro h hmem
    rcases mem_filterFiles.mp hmem with ⟨ds, _, _, _, hcond⟩
    simp [fileSelected, includeExclude, h] at hcond
  · rintro rfl rfl
    rw [mem_filterFiles]
    constructor
    · rintro ⟨ds, hds, hsel, hf, hcond⟩
      refine ⟨ds, hds, hsel, hf, ?_⟩
      by_contra hne
      rw [Bool.not_eq_false] at hne
      simp [fileSelected, includeExclude, hne] at hcond
    · rintro ⟨ds, hds, hsel, hf, hexcl⟩
      refine ⟨ds, hds, hsel, hf, ?_⟩
      simp [fileSelected, includeExclude, hexcl]

/-- C10 (witness).  With exact-match patterns over a concrete dataset,
excluding `a.txt` removes it even though it is also included, and with no
include patterns the non-excluded `b.csv` is selected. -/
theorem filter_exclude_precedence_witness :
    dsFileA ∉ filterFiles eqMatch [dsA] ["a"] [] ["a.txt"] ["a.txt"] ∧
    dsFileB ∈ filterFiles eqMatch [dsA] [] [] [] ["a.txt"] := by
  constructor
  · exact (filter_exclude_precedence eqMatch [dsA] ["a"] [] ["a.txt"]
      ["a.txt"] dsFileA "").2.1 (by decide)
  · exact ((filter_exclude_precedence eqMatch [dsA] [] [] [] ["a.txt"]
      dsFileB "").2.2 rfl rfl).mpr (by decide)

end RenkuFilter
